import Mathlib

/-!
Verification of the threshold-cryptography session coordinator and its round
drivers. The coordinator (HTTP handlers over two in-memory session registries)
and the per-party drivers are shallowly embedded as pure Lean functions;
HTTP plumbing and JSON framing are elided, the handler logic is kept verbatim.
-/

/-- A byte is modelled as a natural number (values 0..255 in practice). -/
abbrev Bytes := List Nat

/-- Base64 alphabet character for a 6-bit value (RFC 4648 standard alphabet),
matching Go's base64.StdEncoding. -/
def b64Char (v : Nat) : Char :=
  if v < 26 then Char.ofNat (65 + v)
  else if v < 52 then Char.ofNat (97 + (v - 26))
  else if v < 62 then Char.ofNat (48 + (v - 52))
  else if v = 62 then '+'
  else '/'

/-- Index of a character in the standard base64 alphabet, `none` for
characters outside it. -/
def b64Index (c : Char) : Option Nat :=
  if 65 ≤ c.toNat ∧ c.toNat ≤ 90 then some (c.toNat - 65)
  else if 97 ≤ c.toNat ∧ c.toNat ≤ 122 then some (c.toNat - 97 + 26)
  else if 48 ≤ c.toNat ∧ c.toNat ≤ 57 then some (c.toNat - 48 + 52)
  else if c = '+' then some 62
  else if c = '/' then some 63
  else none

/-- Standard base64 encoding of a byte list, as a character list. -/
def base64EncodeChars : Bytes → List Char
  | [] => []
  | [b1] => [b64Char (b1 / 4), b64Char (b1 % 4 * 16), '=', '=']
  | [b1, b2] => [b64Char (b1 / 4), b64Char (b1 % 4 * 16 + b2 / 16),
                 b64Char (b2 % 16 * 4), '=']
  | b1 :: b2 :: b3 :: rest =>
      b64Char (b1 / 4) :: b64Char (b1 % 4 * 16 + b2 / 16) ::
      b64Char (b2 % 16 * 4 + b3 / 64) :: b64Char (b3 % 64) ::
      base64EncodeChars rest

/-- Standard base64 encoding of a byte list, mirroring
`base64.StdEncoding.EncodeToString`. -/
def base64Encode (bs : Bytes) : String := String.mk (base64EncodeChars bs)

/-- Standard base64 decoding of a character list: groups of four alphabet
characters, with `=` padding only in the final group. Returns `none` on
malformed input, mirroring the error of `base64.StdEncoding.DecodeString`. -/
def base64DecodeChars : List Char → Option Bytes
  | [] => some []
  | c1 :: c2 :: c3 :: c4 :: rest =>
      match b64Index c1, b64Index c2 with
      | some i1, some i2 =>
        if c3 = '=' then
          if c4 = '=' ∧ rest = [] then some [i1 * 4 + i2 / 16] else none
        else
          match b64Index c3 with
          | some i3 =>
            if c4 = '=' then
              if rest = [] then some [i1 * 4 + i2 / 16, i2 % 16 * 16 + i3 / 4]
              else none
            else
              match b64Index c4 with
              | some i4 =>
                (base64DecodeChars rest).map
                  (fun bs => (i1 * 4 + i2 / 16) :: (i2 % 16 * 16 + i3 / 4) ::
                             (i3 % 4 * 64 + i4) :: bs)
              | none => none
          | none => none
      | _, _ => none
  | _ => none

/-- Standard base64 decoding of a string, mirroring
`base64.StdEncoding.DecodeString` (which errors on malformed input). -/
def base64Decode (s : String) : Option Bytes := base64DecodeChars s.data

example : base64Decode (base64Encode [1]) = some [1] := by decide
example : base64Decode (base64Encode [1, 2, 3]) = some [1, 2, 3] := by decide
example : base64Decode (base64Encode []) = some [] := by decide
example : base64Decode "!" = none := by decide

/-- A relayed protocol message, mirroring the coordinator's `Message` struct:
`From`/`To` are party IDs (`To = 0` means broadcast), `Content` is the decoded
opaque payload. -/
structure Message where
  From : Int
  To : Int
  Round : Int
  Content : Bytes
deriving DecidableEq, Repr

/-- A coordinator session, mirroring the `Session` struct (the mutex is
serialization machinery and has no sequential meaning; the dead-code
`Authenticated` map is omitted with the dead `AuthenticateParty` handler).
`Messages` is the per-round message log, a total map defaulting to `[]`
exactly like a Go `map[int][]Message` read. -/
structure Session where
  ID : String
  T : Int
  N : Int
  PartyIDs : List Int
  JoinedParties : List Int
  Messages : Int → List Message
  GroupKey : String
  Transaction : Option Bytes

/-- The coordinator's global state: the keygen registry `sessions` and the
signing registry `signingessions` (the source's spelling), two separate maps
keyed by session ID. -/
structure ServerState where
  sessions : List (String × Session)
  signingessions : List (String × Session)

/-- Map lookup on an association list, mirroring a Go map read. -/
def mapGet : List (String × Session) → String → Option Session
  | [], _ => none
  | (k, v) :: rest, key => if k = key then some v else mapGet rest key

/-- Map write on an association list, mirroring a Go map assignment
(replaces the binding if the key is present, otherwise appends it). -/
def mapSet : List (String × Session) → String → Session → List (String × Session)
  | [], key, v => [(key, v)]
  | (k, w) :: rest, key, v =>
      if k = key then (key, v) :: rest else (k, w) :: mapSet rest key v

/-- Map deletion on an association list, mirroring Go's `delete`. -/
def mapDel (m : List (String × Session)) (key : String) : List (String × Session) :=
  m.filter (fun p => p.1 ≠ key)

/-- Error taxonomy of the coordinator's HTTP error responses. -/
inductive ApiError
  | invalidParameters
  | sessionNotFound
  | sessionFull
  | roundIncomplete
  | decodeError
  | notYetStaged
  | sessionExists
  | noTransaction
deriving DecidableEq, Repr

/-- One `(to, content)` entry of a message-submission request body, the
content still base64-encoded as on the wire. -/
structure MessageRequest where
  To : Int
  Content : String
deriving DecidableEq, Repr

/-- Party IDs `[1, 2, ..., n]` as initialized at session creation. -/
def mkPartyIDs (n : Int) : List Int :=
  (List.range n.toNat).map (fun i => Int.ofNat (i + 1))

/-- The `InitiateKeygen` handler: rejects `n < t` or `t < 1`, otherwise
creates a session with ID `session-(count+1)` and party IDs `1..n`. -/
def InitiateKeygen (st : ServerState) (t n : Int) :
    ServerState × Except ApiError String :=
  if n < t ∨ t < 1 then (st, .error .invalidParameters)
  else
    let sessionID := "session-" ++ toString (st.sessions.length + 1)
    let session : Session :=
      { ID := sessionID, T := t, N := n, PartyIDs := mkPartyIDs n,
        JoinedParties := [], Messages := fun _ => [], GroupKey := "",
        Transaction := none }
    ({ st with sessions := mapSet st.sessions sessionID session }, .ok sessionID)

/-- The `JoinSession` handler (keygen): assigns the next unclaimed party ID
`PartyIDs[len(JoinedParties)]` and appends it, failing when the session is
unknown or already has `N` joined parties. -/
def JoinSession (st : ServerState) (sessionID : String) :
    ServerState × Except ApiError Int :=
  match mapGet st.sessions sessionID with
  | none => (st, .error .sessionNotFound)
  | some session =>
    if session.N ≤ (session.JoinedParties.length : Int) then
      (st, .error .sessionFull)
    else
      let newPartyID := session.PartyIDs.getD session.JoinedParties.length 0
      let session' :=
        { session with JoinedParties := session.JoinedParties ++ [newPartyID] }
      ({ st with sessions := mapSet st.sessions sessionID session' },
       .ok newPartyID)

/-- The shared message-appending loop of both POST messages handlers: decode
each entry's base64 content in order, appending a `Message` to the round's
log; on the first malformed entry stop with an error, keeping the entries
already appended (the source returns mid-loop with the session mutated). -/
def appendDecoded (pid round : Int) :
    Session → List MessageRequest → Session × Except ApiError Unit
  | s, [] => (s, .ok ())
  | s, mr :: rest =>
    match base64Decode mr.Content with
    | none => (s, .error .decodeError)
    | some bytes =>
      let msg : Message :=
        { From := pid, To := mr.To, Round := round, Content := bytes }
      let s' : Session :=
        { s with Messages := fun r =>
            if r = round then s.Messages round ++ [msg] else s.Messages r }
      appendDecoded pid round s' rest

/-- The POST branch of the keygen `MessagesHandler`: append one message per
`(to, content)` pair to `messages[round]`, with no validation of the sender. -/
def MessagesHandlerPost (st : ServerState) (sessionID : String)
    (pid round : Int) (msgs : List MessageRequest) :
    ServerState × Except ApiError Unit :=
  match mapGet st.sessions sessionID with
  | none => (st, .error .sessionNotFound)
  | some session =>
    let res := appendDecoded pid round session msgs
    ({ st with sessions := mapSet st.sessions sessionID res.1 }, res.2)

/-- Expected message count gating keygen retrieval: `n` for round 1,
`n·(n−1)` for round 2, `n` for any other round. -/
def expectedMessages (n round : Int) : Int :=
  if round = 1 then n else if round = 2 then n * (n - 1) else n

/-- The GET branch of the keygen `MessagesHandler`: fails until the round's
log reaches the expected count, then returns the base64-encoded contents of
the messages addressed to the caller or broadcast, in insertion order. -/
def MessagesHandlerGet (st : ServerState) (sessionID : String)
    (partyID round : Int) : Except ApiError (List String) :=
  match mapGet st.sessions sessionID with
  | none => .error .sessionNotFound
  | some session =>
    if ((session.Messages round).length : Int) < expectedMessages session.N round then
      .error .roundIncomplete
    else
      .ok (((session.Messages round).filter
              (fun m => m.To == 0 || m.To == partyID)).map
            (fun m => base64Encode m.Content))

/-- The `StatusHandler` response body (keygen): party IDs, joined parties,
threshold and total. -/
structure KeygenStatus where
  partyIDs : List Int
  joinedParties : List Int
  t : Int
  n : Int
deriving DecidableEq, Repr

/-- The keygen `StatusHandler`: read-only snapshot of the session. -/
def StatusHandler (st : ServerState) (sessionID : String) :
    Except ApiError KeygenStatus :=
  match mapGet st.sessions sessionID with
  | none => .error .sessionNotFound
  | some session =>
    .ok { partyIDs := session.PartyIDs, joinedParties := session.JoinedParties,
          t := session.T, n := session.N }

/-- The `InitiateSigning` handler: the caller supplies the session ID;
rejects `t < 1` or `n < t`, then rejects an already-registered ID, otherwise
creates a signing session with party IDs `1..n`. -/
def InitiateSigning (st : ServerState) (sessionID : String) (t n : Int) :
    ServerState × Except ApiError Unit :=
  if t < 1 ∨ n < t then (st, .error .invalidParameters)
  else
    match mapGet st.signingessions sessionID with
    | some _ => (st, .error .sessionExists)
    | none =>
      let session : Session :=
        { ID := sessionID, T := t, N := n, PartyIDs := mkPartyIDs n,
          JoinedParties := [], Messages := fun _ => [], GroupKey := "",
          Transaction := none }
      ({ st with signingessions := mapSet st.signingessions sessionID session },
       .ok ())

/-- The `JoinSigningSession` handler: appends the caller-declared party ID to
`JoinedParties` after only a fullness check — the declared ID is not matched
against `PartyIDs` and may duplicate an earlier join. -/
def JoinSigningSession (st : ServerState) (sessionID : String) (pid : Int) :
    ServerState × Except ApiError Int :=
  match mapGet st.signingessions sessionID with
  | none => (st, .error .sessionNotFound)
  | some session =>
    if session.N ≤ (session.JoinedParties.length : Int) then
      (st, .error .sessionFull)
    else
      let session' :=
        { session with JoinedParties := session.JoinedParties ++ [pid] }
      ({ st with signingessions := mapSet st.signingessions sessionID session' },
       .ok pid)

/-- The `BroadcastTransaction` handler: stages the base64-decoded payload,
overwriting any previously staged bytes. -/
def BroadcastTransaction (st : ServerState) (sessionID : String)
    (txB64 : String) : ServerState × Except ApiError Unit :=
  match mapGet st.signingessions sessionID with
  | none => (st, .error .sessionNotFound)
  | some session =>
    match base64Decode txB64 with
    | none => (st, .error .decodeError)
    | some txBytes =>
      let session' := { session with Transaction := some txBytes }
      ({ st with signingessions := mapSet st.signingessions sessionID session' },
       .ok ())

/-- The POST branch of `SigningMessagesHandler`: identical appending loop to
the keygen handler, on the signing registry (the threshold comparison in the
source only logs and has no effect on state or response). -/
def SigningMessagesHandlerPost (st : ServerState) (sessionID : String)
    (pid round : Int) (msgs : List MessageRequest) :
    ServerState × Except ApiError Unit :=
  match mapGet st.signingessions sessionID with
  | none => (st, .error .sessionNotFound)
  | some session =>
    let res := appendDecoded pid round session msgs
    ({ st with signingessions := mapSet st.signingessions sessionID res.1 },
     res.2)

/-- The GET branch of `SigningMessagesHandler`: no completeness gate; returns
the base64-encoded contents of the messages addressed to the caller or
broadcast, in insertion order. -/
def SigningMessagesHandlerGet (st : ServerState) (sessionID : String)
    (partyID round : Int) : Except ApiError (List String) :=
  match mapGet st.signingessions sessionID with
  | none => .error .sessionNotFound
  | some session =>
    .ok (((session.Messages round).filter
            (fun m => m.To == 0 || m.To == partyID)).map
          (fun m => base64Encode m.Content))

/-- The `SigningStatusHandler` response body. -/
structure SigningStatus where
  partyIDs : List Int
  joinedParties : List Int
  messages : Int → Int
  t : Int
  n : Int
  hasTransaction : Bool

/-- The `SigningStatusHandler`: read-only snapshot including per-round
message counts and whether a transaction has been staged. -/
def SigningStatusHandler (st : ServerState) (sessionID : String) :
    Except ApiError SigningStatus :=
  match mapGet st.signingessions sessionID with
  | none => .error .sessionNotFound
  | some session =>
    .ok { partyIDs := session.PartyIDs,
          joinedParties := session.JoinedParties,
          messages := fun r => ((session.Messages r).length : Int),
          t := session.T, n := session.N,
          hasTransaction := session.Transaction.isSome }

/-- The `GetTransactionHandler`: fails while nothing is staged, otherwise
responds with a single JSON field named `transaction` holding the staged
bytes base64-encoded (the response is modelled as its field-name/value
pairs). -/
def GetTransactionHandler (st : ServerState) (sessionID : String) :
    Except ApiError (List (String × String)) :=
  match mapGet st.signingessions sessionID with
  | none => .error .sessionNotFound
  | some session =>
    match session.Transaction with
    | none => .error .notYetStaged
    | some tx => .ok [("transaction", base64Encode tx)]

/-- The signing driver's `getTransactionMessage`: decodes the JSON response
into a struct with the single field `message` (an absent field decodes to
the empty string, as in Go) and base64-decodes it. -/
def getTransactionMessage (resp : List (String × String)) : Option Bytes :=
  base64Decode ((resp.lookup "message").getD "")

/-- The `FinalizeTransaction` handler: requires a known session, a decodable
signature and a staged transaction; responds with the transaction and
signature lengths and then deletes the session from the signing registry. -/
def FinalizeTransaction (st : ServerState) (sessionID : String)
    (sigB64 : String) : ServerState × Except ApiError (Nat × Nat) :=
  match mapGet st.signingessions sessionID with
  | none => (st, .error .sessionNotFound)
  | some session =>
    match base64Decode sigB64 with
    | none => (st, .error .decodeError)
    | some signature =>
      match session.Transaction with
      | none => (st, .error .noTransaction)
      | some transaction =>
        ({ st with signingessions := mapDel st.signingessions sessionID },
         .ok (transaction.length, signature.length))

/-- Exit condition of the signing driver's `waitForAllParties` polling loop:
the loop returns as soon as a polled status reports
`len(joinedParties) >= status.T` — the threshold, not the party total. -/
def waitForAllPartiesExits (status : SigningStatus) : Bool :=
  status.t ≤ (status.joinedParties.length : Int)

/-- Exit condition of the keygen driver's quorum-wait loop in
`joinAndRetrieveSessionInfo`: the loop breaks once a polled status reports
`len(joinedParties) >= N`, the party total from the join response. -/
def keygenQuorumWaitExits (status : KeygenStatus) (nFromJoin : Int) : Bool :=
  nFromJoin ≤ (status.joinedParties.length : Int)

/-- One coordinator request, for stating reachability/temporal properties
over arbitrary interleavings of API calls. -/
inductive Op
  | initiateKeygen (t n : Int)
  | joinSession (sid : String)
  | keygenPost (sid : String) (pid round : Int) (msgs : List MessageRequest)
  | keygenGet (sid : String) (pid round : Int)
  | keygenStatus (sid : String)
  | initiateSigning (sid : String) (t n : Int)
  | joinSigning (sid : String) (pid : Int)
  | broadcastTx (sid : String) (txB64 : String)
  | signingPost (sid : String) (pid round : Int) (msgs : List MessageRequest)
  | signingGet (sid : String) (pid round : Int)
  | signingStatus (sid : String)
  | getTransaction (sid : String)
  | finalize (sid : String) (sigB64 : String)

/-- State transition of one coordinator request (GET handlers are
read-only). -/
def step (st : ServerState) : Op → ServerState
  | .initiateKeygen t n => (InitiateKeygen st t n).1
  | .joinSession sid => (JoinSession st sid).1
  | .keygenPost sid pid round msgs => (MessagesHandlerPost st sid pid round msgs).1
  | .keygenGet _ _ _ => st
  | .keygenStatus _ => st
  | .initiateSigning sid t n => (InitiateSigning st sid t n).1
  | .joinSigning sid pid => (JoinSigningSession st sid pid).1
  | .broadcastTx sid txB64 => (BroadcastTransaction st sid txB64).1
  | .signingPost sid pid round msgs => (SigningMessagesHandlerPost st sid pid round msgs).1
  | .signingGet _ _ _ => st
  | .signingStatus _ => st
  | .getTransaction _ => st
  | .finalize sid sigB64 => (FinalizeTransaction st sid sigB64).1

/-- State after a sequence of coordinator requests. -/
def run (st : ServerState) (ops : List Op) : ServerState :=
  ops.foldl step st

/-- Whether a request is a finalize call, the only deleting operation. -/
def Op.isFinalize : Op → Bool
  | .finalize _ _ => true
  | _ => false

theorem mapGet_mapSet_self (m : List (String × Session)) (k : String) (v : Session) :
    mapGet (mapSet m k v) k = some v := by
  induction m with
  | nil => simp [mapSet, mapGet]
  | cons hd tl ih =>
    obtain ⟨k0, v0⟩ := hd
    by_cases h : k0 = k
    · simp [mapSet, mapGet, h]
    · simp [mapSet, mapGet, h, ih]

theorem mapGet_mapSet_ne (m : List (String × Session)) (k key : String) (v : Session)
    (h : k ≠ key) : mapGet (mapSet m k v) key = mapGet m key := by
  induction m with
  | nil => simp [mapSet, mapGet, h]
  | cons hd tl ih =>
    obtain ⟨k0, v0⟩ := hd
    by_cases h0 : k0 = k
    · subst h0
      simp [mapSet, mapGet, h]
    · simp [mapSet, mapGet, h0, ih]

theorem mapGet_mapSet_isSome (m : List (String × Session)) (k key : String)
    (v : Session) (h : (mapGet m key).isSome) :
    (mapGet (mapSet m k v) key).isSome := by
  by_cases hk : k = key
  · subst hk
    simp [mapGet_mapSet_self]
  · rwa [mapGet_mapSet_ne m k key v hk]

theorem mapGet_mapDel_self (m : List (String × Session)) (k : String) :
    mapGet (mapDel m k) k = none := by
  induction m with
  | nil => simp [mapDel, mapGet]
  | cons hd tl ih =>
    obtain ⟨k0, v0⟩ := hd
    by_cases h : k0 = k
    · simpa [mapDel, h] using ih
    · simpa [mapDel, List.filter, h, mapGet] using ih

theorem length_mkPartyIDs (n : Int) : (mkPartyIDs n).length = n.toNat := by
  rw [mkPartyIDs, List.length_map, List.length_range]

theorem getD_mkPartyIDs (n : Int) (k : Nat) (h : k < n.toNat) :
    (mkPartyIDs n).getD k 0 = (k : Int) + 1 := by
  rw [mkPartyIDs, List.getD_eq_getElem?_getD, List.getElem?_map,
    List.getElem?_range h]
  show Int.ofNat (k + 1) = (k : Int) + 1
  rw [Int.ofNat_eq_natCast]
  push_cast
  ring

theorem take_mkPartyIDs_succ (n : Int) (k : Nat) (h : k < n.toNat) :
    (mkPartyIDs n).take k ++ [(k : Int) + 1] = (mkPartyIDs n).take (k + 1) := by
  rw [List.take_succ, mkPartyIDs, List.getElem?_map, List.getElem?_range h]
  simp [Int.ofNat_eq_natCast]

/-- The messages appended for a request batch whose contents all decode:
one `Message` per `(to, content)` pair, in pair order, carrying the
submitted sender and round. -/
def decodeMsgs (pid round : Int) (l : List MessageRequest) : List Message :=
  l.map (fun mr =>
    { From := pid, To := mr.To, Round := round,
      Content := (base64Decode mr.Content).getD [] })

theorem appendDecoded_ok (pid round : Int) (msgs : List MessageRequest) :
    ∀ s : Session, (∀ mr ∈ msgs, (base64Decode mr.Content).isSome = true) →
    (appendDecoded pid round s msgs).2 = .ok () ∧
    (appendDecoded pid round s msgs).1.Messages round
      = s.Messages round ++ decodeMsgs pid round msgs ∧
    (∀ r, r ≠ round → (appendDecoded pid round s msgs).1.Messages r = s.Messages r) := by
  induction msgs with
  | nil => intro s _; simp [appendDecoded, decodeMsgs]
  | cons mr rest ih =>
    intro s hall
    have hmr : (base64Decode mr.Content).isSome = true := hall mr (by simp)
    obtain ⟨b, hb⟩ := Option.isSome_iff_exists.mp hmr
    have hrest : ∀ m ∈ rest, (base64Decode m.Content).isSome = true := by
      intro m hm; exact hall m (by simp [hm])
    simp only [appendDecoded, hb]
    obtain ⟨h1, h2, h3⟩ := ih _ hrest
    refine ⟨h1, ?_, ?_⟩
    · rw [h2]
      simp [decodeMsgs, hb]
    · intro r hr
      rw [h3 r hr]
      simp [hr]

theorem appendDecoded_err (pid round : Int) (mrBad : MessageRequest)
    (rest : List MessageRequest) (hbad : base64Decode mrBad.Content = none)
    (goodPart : List MessageRequest) :
    ∀ s : Session, (∀ mr ∈ goodPart, (base64Decode mr.Content).isSome = true) →
    (appendDecoded pid round s (goodPart ++ mrBad :: rest)).2 = .error .decodeError ∧
    (appendDecoded pid round s (goodPart ++ mrBad :: rest)).1.Messages round
      = s.Messages round ++ decodeMsgs pid round goodPart ∧
    (∀ r, r ≠ round →
      (appendDecoded pid round s (goodPart ++ mrBad :: rest)).1.Messages r
        = s.Messages r) := by
  induction goodPart with
  | nil =>
    intro s _
    simp [appendDecoded, hbad, decodeMsgs]
  | cons mr tl ih =>
    intro s hall
    have hmr : (base64Decode mr.Content).isSome = true := hall mr (by simp)
    obtain ⟨b, hb⟩ := Option.isSome_iff_exists.mp hmr
    have htl : ∀ m ∈ tl, (base64Decode m.Content).isSome = true := by
      intro m hm; exact hall m (by simp [hm])
    simp only [List.cons_append, List.append_eq, appendDecoded, hb]
    obtain ⟨h1, h2, h3⟩ := ih _ htl
    refine ⟨h1, ?_, ?_⟩
    · rw [h2]
      simp [decodeMsgs, hb]
    · intro r hr
      rw [h3 r hr]
      simp [hr]

/-- The session after the first `k` parties of a fresh keygen session have
joined in order. -/
def joinedUpTo (s : Session) (k : Nat) : Session :=
  { s with JoinedParties := (mkPartyIDs s.N).take k }

theorem JoinSession_step (st : ServerState) (sid : String) (s : Session) (k : Nat)
    (h : mapGet st.sessions sid = some (joinedUpTo s k))
    (hp : s.PartyIDs = mkPartyIDs s.N)
    (hk : (k : Int) < s.N) :
    JoinSession st sid =
      ({ st with sessions := mapSet st.sessions sid (joinedUpTo s (k + 1)) },
       .ok ((k : Int) + 1)) := by
  have hkn : k < s.N.toNat := by omega
  have hlen : (joinedUpTo s k).JoinedParties.length = k := by
    rw [joinedUpTo, List.length_take, length_mkPartyIDs]
    omega
  have hfull : ¬ ((joinedUpTo s k).N ≤ ((joinedUpTo s k).JoinedParties.length : Int)) := by
    rw [hlen]
    show ¬ (s.N ≤ (k : Int))
    omega
  have hnew : (joinedUpTo s k).PartyIDs.getD (joinedUpTo s k).JoinedParties.length 0
      = (k : Int) + 1 := by
    rw [hlen]
    show s.PartyIDs.getD k 0 = (k : Int) + 1
    rw [hp, getD_mkPartyIDs s.N k hkn]
  simp only [JoinSession, h, hfull, if_false]
  rw [hnew]
  have hjoin : (joinedUpTo s k).JoinedParties ++ [(k : Int) + 1]
      = (joinedUpTo s (k + 1)).JoinedParties := by
    show (mkPartyIDs s.N).take k ++ [(k : Int) + 1] = (mkPartyIDs s.N).take (k + 1)
    exact take_mkPartyIDs_succ s.N k hkn
  rw [hjoin]
  rfl

/-- `k` sequential `Join` calls on a keygen session, collecting the
responses in call order. -/
def joinN (st : ServerState) (sid : String) : Nat → ServerState × List (Except ApiError Int)
  | 0 => (st, [])
  | k + 1 =>
    let p := joinN st sid k
    let q := JoinSession p.1 sid
    (q.1, p.2 ++ [q.2])

theorem joinN_spec (st1 : ServerState) (sid : String) (s0 : Session)
    (h : mapGet st1.sessions sid = some s0)
    (hp : s0.PartyIDs = mkPartyIDs s0.N)
    (hj : s0.JoinedParties = []) :
    ∀ k : Nat, k ≤ s0.N.toNat →
    ∃ stk, joinN st1 sid k
        = (stk, (List.range k).map (fun i => Except.ok (Int.ofNat (i + 1))))
      ∧ mapGet stk.sessions sid = some (joinedUpTo s0 k) := by
  intro k
  induction k with
  | zero =>
    intro _
    refine ⟨st1, by simp [joinN], ?_⟩
    rw [h]
    congr 1
    rw [joinedUpTo]
    cases s0
    simp_all
  | succ k ih =>
    intro hk1
    obtain ⟨stk, hrun, hget⟩ := ih (by omega)
    have hkn : (k : Int) < s0.N := by omega
    have hstep := JoinSession_step stk sid s0 k hget hp hkn
    refine ⟨{ stk with sessions := mapSet stk.sessions sid (joinedUpTo s0 (k + 1)) },
      ?_, ?_⟩
    · show joinN st1 sid (k + 1) = _
      simp only [joinN, hrun, hstep]
      rw [List.range_succ]
      simp only [List.map_append, List.map_cons, List.map_nil]
      push_cast [Int.ofNat_eq_natCast]
      rfl
    · exact mapGet_mapSet_self _ _ _

/-- C1: for a keygen session, `Retrieve(sessionID, partyID, round)` fails with
`RoundIncomplete` while the stored count for the round is below the expected
count — `n` for round 1, `n·(n−1)` for round 2, `n` for any other round —
and once the count reaches it, succeeds with exactly the contents of the
round's messages whose `to` is 0 or the caller, in insertion order. -/
theorem keygenRetrieveGate (st : ServerState) (sid : String) (s : Session)
    (p r : Int) (h : mapGet st.sessions sid = some s) :
    (((s.Messages r).length : Int) < expectedMessages s.N r →
      MessagesHandlerGet st sid p r = .error .roundIncomplete)
    ∧ (expectedMessages s.N r ≤ ((s.Messages r).length : Int) →
      MessagesHandlerGet st sid p r
        = .ok (((s.Messages r).filter (fun m => m.To == 0 || m.To == p)).map
            (fun m => base64Encode m.Content)))
    ∧ expectedMessages s.N 1 = s.N
    ∧ expectedMessages s.N 2 = s.N * (s.N - 1)
    ∧ (r ≠ 1 → r ≠ 2 → expectedMessages s.N r = s.N) := by
  refine ⟨?_, ?_, by simp [expectedMessages], by norm_num [expectedMessages], ?_⟩
  · intro hlt
    simp only [MessagesHandlerGet, h]
    rw [if_pos hlt]
  · intro hge
    simp only [MessagesHandlerGet, h]
    rw [if_neg (by omega)]
  · intro h1 h2
    simp [expectedMessages, h1, h2]

/-- Concrete keygen session for evaluating the retrieval gate: one party,
one broadcast message stored for round 1. -/
def keygenDemoSession : Session :=
  { ID := "session-1", T := 1, N := 1, PartyIDs := [1], JoinedParties := [1],
    Messages := fun r =>
      if r = 1 then [{ From := 1, To := 0, Round := 1, Content := [1] }] else [],
    GroupKey := "", Transaction := none }

/-- Concrete coordinator state holding `keygenDemoSession`. -/
def keygenDemoState : ServerState :=
  { sessions := [("session-1", keygenDemoSession)], signingessions := [] }

/-- C1 witness: at the demo state, round 3 (0 of 1 expected messages) fails
with `RoundIncomplete` and round 1 (1 of 1) succeeds with the broadcast's
content. -/
theorem keygenRetrieveGateWitness :
    MessagesHandlerGet keygenDemoState "session-1" 1 3 = .error .roundIncomplete
    ∧ MessagesHandlerGet keygenDemoState "session-1" 1 1
        = .ok [base64Encode [1]] := by
  refine ⟨(keygenRetrieveGate keygenDemoState "session-1" keygenDemoSession 1 3
      rfl).1 (by decide), ?_⟩
  exact (keygenRetrieveGate keygenDemoState "session-1" keygenDemoSession 1 1
      rfl).2.1 (by decide)

/-- C2: for valid `(t, n)` with `1 ≤ t ≤ n`, `CreateSession` followed by `n`
sequential `Join` calls returns party IDs `1, 2, ..., n` in order and leaves
`joinedParties = [1..n]`; the `(n+1)`-th `Join` fails with `SessionFull` and
leaves the state unchanged. -/
theorem joinSequenceSpec (t n : Int) (st : ServerState)
    (ht : 1 ≤ t) (htn : t ≤ n) :
    ∃ sid st1 st2,
      InitiateKeygen st t n = (st1, .ok sid)
      ∧ joinN st1 sid n.toNat
          = (st2, (List.range n.toNat).map (fun i => Except.ok (Int.ofNat (i + 1))))
      ∧ (∃ s, mapGet st2.sessions sid = some s
          ∧ s.JoinedParties = mkPartyIDs n ∧ s.PartyIDs = mkPartyIDs n)
      ∧ JoinSession st2 sid = (st2, .error .sessionFull) := by
  have hvalid : ¬ (n < t ∨ t < 1) := by omega
  set sid := "session-" ++ toString (st.sessions.length + 1) with hsid
  set s0 : Session :=
    { ID := sid, T := t, N := n, PartyIDs := mkPartyIDs n,
      JoinedParties := [], Messages := fun _ => [], GroupKey := "",
      Transaction := none } with hs0
  set st1 : ServerState := { st with sessions := mapSet st.sessions sid s0 }
    with hst1
  have hinit : InitiateKeygen st t n = (st1, .ok sid) := by
    rw [InitiateKeygen, if_neg hvalid]
  have hget1 : mapGet st1.sessions sid = some s0 := mapGet_mapSet_self _ _ _
  have hp0 : s0.PartyIDs = mkPartyIDs s0.N := rfl
  have hj0 : s0.JoinedParties = [] := rfl
  have hle : n.toNat ≤ s0.N.toNat := le_refl _
  obtain ⟨st2, hrun, hget2⟩ := joinN_spec st1 sid s0 hget1 hp0 hj0 n.toNat hle
  have htake : (mkPartyIDs s0.N).take n.toNat = mkPartyIDs n := by
    apply List.take_of_length_le
    exact le_of_eq (length_mkPartyIDs _)
  have hjp : (joinedUpTo s0 n.toNat).JoinedParties = mkPartyIDs n := htake
  have hlen2 : (((mkPartyIDs s0.N).take n.toNat).length : Int) = s0.N := by
    rw [htake, length_mkPartyIDs]
    show ((n.toNat : Nat) : Int) = n
    omega
  have hcond : (joinedUpTo s0 n.toNat).N
      ≤ ((joinedUpTo s0 n.toNat).JoinedParties.length : Int) :=
    le_of_eq hlen2.symm
  have hfull : JoinSession st2 sid = (st2, .error .sessionFull) := by
    simp only [JoinSession, hget2]
    rw [if_pos hcond]
  exact ⟨sid, st1, st2, hinit, hrun, ⟨joinedUpTo s0 n.toNat, hget2, hjp, rfl⟩, hfull⟩

/-- C2 witness: the join sequence property evaluated at `t = 1, n = 2` on the
empty coordinator state. -/
theorem joinSequenceSpecWitness :
    ∃ sid st1 st2,
      InitiateKeygen { sessions := [], signingessions := [] } 1 2 = (st1, .ok sid)
      ∧ joinN st1 sid (2 : Int).toNat
          = (st2, (List.range (2 : Int).toNat).map
              (fun i => Except.ok (Int.ofNat (i + 1))))
      ∧ (∃ s, mapGet st2.sessions sid = some s
          ∧ s.JoinedParties = mkPartyIDs 2 ∧ s.PartyIDs = mkPartyIDs 2)
      ∧ JoinSession st2 sid = (st2, .error .sessionFull) :=
  joinSequenceSpec 1 2 { sessions := [], signingessions := [] }
    (by decide) (by decide)

/-- Signing session with a directed message from party 1 to party 2 and a
broadcast from party 2, stored for round 1. -/
def signingDemoSession : Session :=
  { ID := "sig-1", T := 1, N := 2, PartyIDs := [1, 2], JoinedParties := [1, 2],
    Messages := fun r =>
      if r = 1 then
        [{ From := 1, To := 2, Round := 1, Content := [1] },
         { From := 2, To := 0, Round := 1, Content := [2] }]
      else [],
    GroupKey := "", Transaction := none }

/-- Coordinator state holding `signingDemoSession` in the signing registry. -/
def signingDemoState : ServerState :=
  { sessions := [], signingessions := [("sig-1", signingDemoSession)] }

/-- C3 counterexample: party 1 authored the round-1 message directed to
party 2, yet its own `Retrieve` returns only the broadcast content `[2]`
and not the content `[1]` it authored — the sender does not always see the
messages it authored. -/
theorem senderVisibilityCounterexample :
    SigningMessagesHandlerGet signingDemoState "sig-1" 1 1
      = .ok [base64Encode [2]]
    ∧ signingDemoSession.Messages 1
      = [{ From := 1, To := 2, Round := 1, Content := [1] },
         { From := 2, To := 0, Round := 1, Content := [2] }]
    ∧ base64Encode [1] ∉ [base64Encode [2]] := by
  refine ⟨rfl, rfl, ?_⟩
  decide

/-- C3 (amended): a successful `Retrieve` by party `p` returns exactly the
contents of the stored messages with `to = 0` or `to = p`, in insertion
order, for the signing handler always and for the keygen handler once the
round is complete; a stored message passes the visibility filter iff it is
broadcast or addressed to the caller — so the sender sees a message it
authored only when that message is broadcast or addressed to itself, and a
directed message is never delivered to a third party. -/
theorem retrieveVisibilityFilter (st : ServerState) (sid : String) (s : Session)
    (p r : Int) (h : mapGet st.signingessions sid = some s) :
    (SigningMessagesHandlerGet st sid p r
      = .ok (((s.Messages r).filter (fun m => m.To == 0 || m.To == p)).map
          (fun m => base64Encode m.Content)))
    ∧ (∀ m ∈ s.Messages r, (m.To = 0 ∨ m.To = p) ↔
        m ∈ (s.Messages r).filter (fun m => m.To == 0 || m.To == p))
    ∧ (∀ st2 sid2 s2, mapGet st2.sessions sid2 = some s2 →
        expectedMessages s2.N r ≤ ((s2.Messages r).length : Int) →
        MessagesHandlerGet st2 sid2 p r
          = .ok (((s2.Messages r).filter (fun m => m.To == 0 || m.To == p)).map
              (fun m => base64Encode m.Content))) := by
  refine ⟨by simp only [SigningMessagesHandlerGet, h], ?_, ?_⟩
  · intro m hm
    constructor
    · intro hv
      exact List.mem_filter.mpr ⟨hm, by simpa using hv⟩
    · intro hf
      simpa using (List.mem_filter.mp hf).2
  · intro st2 sid2 s2 h2 hge
    simp only [MessagesHandlerGet, h2]
    rw [if_neg (by omega)]

/-- C3 witness: the filter characterization evaluated at the demo state for
party 2, round 1 — party 2 receives both stored contents, and the directed
message satisfies the filter for party 2 but not for party 1. -/
theorem retrieveVisibilityFilterWitness :
    SigningMessagesHandlerGet signingDemoState "sig-1" 2 1
      = .ok (((signingDemoSession.Messages 1).filter
          (fun m => m.To == 0 || m.To == 2)).map (fun m => base64Encode m.Content))
    ∧ (({ From := 1, To := 2, Round := 1, Content := [1] } : Message).To = 0
        ∨ ({ From := 1, To := 2, Round := 1, Content := [1] } : Message).To = 2) := by
  refine ⟨(retrieveVisibilityFilter signingDemoState "sig-1" signingDemoSession
      2 1 rfl).1, ?_⟩
  decide

/-- Keygen session with two parties and empty message logs, for evaluating
message submission. -/
def keygen2DemoSession : Session :=
  { ID := "kg-1", T := 1, N := 2, PartyIDs := [1, 2], JoinedParties := [1, 2],
    Messages := fun _ => [], GroupKey := "", Transaction := none }

/-- Coordinator state holding `keygen2DemoSession` in the keygen registry. -/
def keygen2DemoState : ServerState :=
  { sessions := [("kg-1", keygen2DemoSession)], signingessions := [] }

/-- C9: for an existing session, `Submit` with all-decodable contents appends
exactly one message per `(to, content)` pair to the round's log in pair
order, leaving every other round unchanged, with no condition on the sender;
an unknown session fails with `SessionNotFound` and changes nothing; a
malformed pair aborts with a decode error while the pairs before it remain
appended; the signing-side handler appends identically. -/
theorem submitAppendBehavior (st : ServerState) (sid : String) (s : Session)
    (pid round : Int) (h : mapGet st.sessions sid = some s) :
    (∀ msgs, (∀ mr ∈ msgs, (base64Decode mr.Content).isSome = true) →
      ∃ s1, MessagesHandlerPost st sid pid round msgs
          = ({ st with sessions := mapSet st.sessions sid s1 }, .ok ())
        ∧ s1.Messages round = s.Messages round ++ decodeMsgs pid round msgs
        ∧ (∀ r2, r2 ≠ round → s1.Messages r2 = s.Messages r2))
    ∧ (∀ pre mrBad rest, (∀ mr ∈ pre, (base64Decode mr.Content).isSome = true) →
        base64Decode mrBad.Content = none →
      ∃ s1, MessagesHandlerPost st sid pid round (pre ++ mrBad :: rest)
          = ({ st with sessions := mapSet st.sessions sid s1 }, .error .decodeError)
        ∧ s1.Messages round = s.Messages round ++ decodeMsgs pid round pre
        ∧ (∀ r2, r2 ≠ round → s1.Messages r2 = s.Messages r2))
    ∧ (∀ st2 sid2 pid2 round2 msgs2, mapGet st2.sessions sid2 = none →
        MessagesHandlerPost st2 sid2 pid2 round2 msgs2
          = (st2, .error .sessionNotFound))
    ∧ (∀ st2 sid2 s2 pid2 round2 msgs2,
        mapGet st2.signingessions sid2 = some s2 →
        (∀ mr ∈ msgs2, (base64Decode mr.Content).isSome = true) →
      ∃ s1, SigningMessagesHandlerPost st2 sid2 pid2 round2 msgs2
          = ({ st2 with signingessions := mapSet st2.signingessions sid2 s1 },
             .ok ())
        ∧ s1.Messages round2 = s2.Messages round2 ++ decodeMsgs pid2 round2 msgs2) := by
  refine ⟨?_, ?_, ?_, ?_⟩
  · intro msgs hall
    obtain ⟨h1, h2, h3⟩ := appendDecoded_ok pid round msgs s hall
    refine ⟨(appendDecoded pid round s msgs).1, ?_, h2, h3⟩
    simp only [MessagesHandlerPost, h]
    rw [h1]
  · intro pre mrBad rest hall hbad
    obtain ⟨h1, h2, h3⟩ := appendDecoded_err pid round mrBad rest hbad pre s hall
    refine ⟨(appendDecoded pid round s (pre ++ mrBad :: rest)).1, ?_, h2, h3⟩
    simp only [MessagesHandlerPost, h]
    rw [h1]
  · intro st2 sid2 pid2 round2 msgs2 hnone
    simp only [MessagesHandlerPost, hnone]
  · intro st2 sid2 s2 pid2 round2 msgs2 h2 hall
    obtain ⟨h1, hmsg, _⟩ := appendDecoded_ok pid2 round2 msgs2 s2 hall
    refine ⟨(appendDecoded pid2 round2 s2 msgs2).1, ?_, hmsg⟩
    simp only [SigningMessagesHandlerPost, h2]
    rw [h1]

/-- C9 witness: submitting one broadcast pair to the demo session succeeds
and appends it; submitting a good pair followed by a malformed one fails
with a decode error while the good pair remains appended. -/
theorem submitAppendBehaviorWitness :
    (∃ s1, MessagesHandlerPost keygen2DemoState "kg-1" 1 1
          [{ To := 0, Content := base64Encode [7] }]
        = ({ keygen2DemoState with
              sessions := mapSet keygen2DemoState.sessions "kg-1" s1 }, .ok ())
      ∧ s1.Messages 1 = keygen2DemoSession.Messages 1
          ++ decodeMsgs 1 1 [{ To := 0, Content := base64Encode [7] }]
      ∧ (∀ r2, r2 ≠ 1 → s1.Messages r2 = keygen2DemoSession.Messages r2))
    ∧ (∃ s1, MessagesHandlerPost keygen2DemoState "kg-1" 1 1
          ([{ To := 2, Content := base64Encode [7] }]
            ++ { To := 0, Content := "!" } :: [])
        = ({ keygen2DemoState with
              sessions := mapSet keygen2DemoState.sessions "kg-1" s1 },
           .error .decodeError)
      ∧ s1.Messages 1 = keygen2DemoSession.Messages 1
          ++ decodeMsgs 1 1 [{ To := 2, Content := base64Encode [7] }]
      ∧ (∀ r2, r2 ≠ 1 → s1.Messages r2 = keygen2DemoSession.Messages r2)) := by
  have h := submitAppendBehavior keygen2DemoState "kg-1" keygen2DemoSession 1 1 rfl
  exact ⟨h.1 [{ To := 0, Content := base64Encode [7] }] (by decide),
         h.2.1 [{ To := 2, Content := base64Encode [7] }]
           { To := 0, Content := "!" } [] (by decide) (by decide)⟩

/-- Signing session with threshold 2 of 3 parties in which only 2 of the 3
parties have joined. -/
def quorumDemoSession : Session :=
  { ID := "q-1", T := 2, N := 3, PartyIDs := [1, 2, 3], JoinedParties := [1, 2],
    Messages := fun _ => [], GroupKey := "", Transaction := none }

/-- Coordinator state holding `quorumDemoSession`. -/
def quorumDemoState : ServerState :=
  { sessions := [], signingessions := [("q-1", quorumDemoSession)] }

/-- The status the coordinator reports for `quorumDemoSession`. -/
def quorumDemoStatus : SigningStatus :=
  { partyIDs := [1, 2, 3], joinedParties := [1, 2],
    messages := fun r => ((quorumDemoSession.Messages r).length : Int),
    t := 2, n := 3, hasTransaction := false }

/-- C4 counterexample: with 2 of 3 parties joined (threshold 2), the signing
driver's `waitForAllParties` exit condition already holds on the polled
status even though fewer than `n` parties have joined — the signing driver
proceeds before all `n` parties join. -/
theorem signingQuorumWaitCounterexample :
    (SigningStatusHandler quorumDemoState "q-1").map waitForAllPartiesExits
      = .ok true
    ∧ (SigningStatusHandler quorumDemoState "q-1").map
        (fun status => decide ((status.joinedParties.length : Int) < status.n))
      = .ok true := by
  constructor <;> rfl

/-- C4 (amended): the keygen driver's quorum-wait loop exits exactly when a
polled status reports `len(joinedParties) >= n`; the signing driver's
`waitForAllParties` loop instead exits exactly when the polled status
reports `len(joinedParties) >= t`, the threshold — not the party total. -/
theorem quorumWaitExitConditions (st : ServerState) (sid : String) (s : Session)
    (h : mapGet st.signingessions sid = some s) :
    (∀ status, SigningStatusHandler st sid = .ok status →
      (waitForAllPartiesExits status = true
        ↔ s.T ≤ (s.JoinedParties.length : Int)))
    ∧ (∀ st2 sid2 s2, mapGet st2.sessions sid2 = some s2 →
        ∀ status, StatusHandler st2 sid2 = .ok status →
          (keygenQuorumWaitExits status s2.N = true
            ↔ s2.N ≤ (s2.JoinedParties.length : Int))) := by
  constructor
  · intro status hst
    simp only [SigningStatusHandler, h, Except.ok.injEq] at hst
    subst hst
    simp [waitForAllPartiesExits]
  · intro st2 sid2 s2 h2 status hst
    simp only [StatusHandler, h2, Except.ok.injEq] at hst
    subst hst
    simp [keygenQuorumWaitExits]

/-- C4 witness: the exit conditions evaluated at the demo state — the signing
wait exits iff the threshold 2 is reached by the 2 joined parties. -/
theorem quorumWaitExitConditionsWitness :
    waitForAllPartiesExits quorumDemoStatus = true
      ↔ quorumDemoSession.T ≤ ((quorumDemoSession.JoinedParties.length : Nat) : Int) :=
  (quorumWaitExitConditions quorumDemoState "q-1" quorumDemoSession rfl).1
    quorumDemoStatus rfl

/-- The coordinator state after a successful finalize: the session is removed
from the signing registry. -/
def afterFinalize (st : ServerState) (sid : String) : ServerState :=
  { st with signingessions := mapDel st.signingessions sid }

/-- C5: on a signing session with a staged transaction, a successful
`Finalize` responds with the transaction and signature lengths and deletes
the session; afterwards a second `Finalize`, and every `Status`, `Join`,
`Submit` or `Retrieve` on the same session ID, fails with
`SessionNotFound`. -/
theorem finalizeDeletesSession (st : ServerState) (sid : String)
    (sigB64 : String) (s : Session) (tx sig : Bytes)
    (h : mapGet st.signingessions sid = some s)
    (htx : s.Transaction = some tx)
    (hsig : base64Decode sigB64 = some sig) :
    FinalizeTransaction st sid sigB64
      = (afterFinalize st sid, .ok (tx.length, sig.length))
    ∧ mapGet (afterFinalize st sid).signingessions sid = none
    ∧ (∀ sig2, FinalizeTransaction (afterFinalize st sid) sid sig2
        = (afterFinalize st sid, .error .sessionNotFound))
    ∧ SigningStatusHandler (afterFinalize st sid) sid = .error .sessionNotFound
    ∧ (∀ p, JoinSigningSession (afterFinalize st sid) sid p
        = (afterFinalize st sid, .error .sessionNotFound))
    ∧ (∀ pid round msgs, SigningMessagesHandlerPost (afterFinalize st sid) sid
          pid round msgs
        = (afterFinalize st sid, .error .sessionNotFound))
    ∧ (∀ p r, SigningMessagesHandlerGet (afterFinalize st sid) sid p r
        = .error .sessionNotFound)
    ∧ GetTransactionHandler (afterFinalize st sid) sid
        = .error .sessionNotFound := by
  have hdel : mapGet (afterFinalize st sid).signingessions sid = none :=
    mapGet_mapDel_self _ _
  refine ⟨?_, hdel, ?_, ?_, ?_, ?_, ?_, ?_⟩
  · simp only [FinalizeTransaction, h, hsig, htx]
    rfl
  · intro sig2
    simp only [FinalizeTransaction, hdel]
  · simp only [SigningStatusHandler, hdel]
  · intro p
    simp only [JoinSigningSession, hdel]
  · intro pid round msgs
    simp only [SigningMessagesHandlerPost, hdel]
  · intro p r
    simp only [SigningMessagesHandlerGet, hdel]
  · simp only [GetTransactionHandler, hdel]

/-- Signing session with a staged two-byte transaction. -/
def stagedDemoSession : Session :=
  { ID := "fin-1", T := 1, N := 2, PartyIDs := [1, 2], JoinedParties := [1, 2],
    Messages := fun _ => [], GroupKey := "", Transaction := some [9, 9] }

/-- Coordinator state holding `stagedDemoSession`. -/
def stagedDemoState : ServerState :=
  { sessions := [], signingessions := [("fin-1", stagedDemoSession)] }

/-- C5 witness: finalizing the staged demo session succeeds and deletes it,
and a `Status` call on the post-finalize state fails with
`SessionNotFound`. -/
theorem finalizeDeletesSessionWitness :
    FinalizeTransaction stagedDemoState "fin-1" (base64Encode [3])
      = (afterFinalize stagedDemoState "fin-1", .ok (([9, 9] : Bytes).length,
          ([3] : Bytes).length))
    ∧ SigningStatusHandler (afterFinalize stagedDemoState "fin-1") "fin-1"
        = .error .sessionNotFound := by
  have h := finalizeDeletesSession stagedDemoState "fin-1" (base64Encode [3])
    stagedDemoSession [9, 9] [3] rfl rfl rfl
  exact ⟨h.1, h.2.2.2.1⟩

/-- Signing session with transaction bytes `[1, 2, 3]` staged. -/
def txDemoSession : Session :=
  { ID := "tx-1", T := 1, N := 2, PartyIDs := [1, 2], JoinedParties := [1, 2],
    Messages := fun _ => [], GroupKey := "", Transaction := some [1, 2, 3] }

/-- Coordinator state holding `txDemoSession`. -/
def txDemoState : ServerState :=
  { sessions := [], signingessions := [("tx-1", txDemoSession)] }

/-- Signing session with no transaction staged yet. -/
def txDemoSessionUnstaged : Session :=
  { ID := "tx-0", T := 1, N := 2, PartyIDs := [1, 2], JoinedParties := [1, 2],
    Messages := fun _ => [], GroupKey := "", Transaction := none }

/-- Coordinator state holding `txDemoSessionUnstaged`. -/
def txDemoStateUnstaged : ServerState :=
  { sessions := [], signingessions := [("tx-0", txDemoSessionUnstaged)] }

/-- C6: the fetch of an unstaged transaction does fail, but the server puts
the staged bytes in a response field named `transaction`, while the round
driver's `getTransactionMessage` decodes the field named `message`; on the
server's actual response that field is absent, so the driver decodes the
empty string and obtains empty bytes instead of the staged `[1, 2, 3]`. -/
theorem transactionFieldMismatch :
    GetTransactionHandler txDemoState "tx-1"
      = .ok [("transaction", base64Encode [1, 2, 3])]
    ∧ ([("transaction", base64Encode [1, 2, 3])].lookup "message"
        = (none : Option String))
    ∧ getTransactionMessage [("transaction", base64Encode [1, 2, 3])]
        = some []
    ∧ some ([] : Bytes) ≠ some [1, 2, 3]
    ∧ GetTransactionHandler txDemoStateUnstaged "tx-0"
        = .error .notYetStaged := by
  refine ⟨rfl, rfl, rfl, by decide, rfl⟩

/-- The session after a party declaring ID `pid` joins a signing session:
the declared ID is appended as-is. -/
def withJoined (s : Session) (pid : Int) : Session :=
  { s with JoinedParties := s.JoinedParties ++ [pid] }

/-- Signing session over party IDs `[1, 2]` in which party 1 has already
joined. -/
def joinDemoSession : Session :=
  { ID := "j-1", T := 1, N := 2, PartyIDs := [1, 2], JoinedParties := [1],
    Messages := fun _ => [], GroupKey := "", Transaction := none }

/-- Coordinator state holding `joinDemoSession`. -/
def joinDemoState : ServerState :=
  { sessions := [], signingessions := [("j-1", joinDemoSession)] }

/-- C7 counterexample: the signing `Join` accepts the out-of-range declared
PartyID 99 (not among the session's party IDs `[1, 2]`), and re-declaring
the already-claimed ID 1 also succeeds, leaving `joinedParties = [1, 1]`
with a duplicate — no validation or uniqueness is enforced. -/
theorem joinSigningValidationCounterexample :
    (JoinSigningSession joinDemoState "j-1" 99).2 = .ok 99
    ∧ mapGet (JoinSigningSession joinDemoState "j-1" 99).1.signingessions "j-1"
        = some (withJoined joinDemoSession 99)
    ∧ (withJoined joinDemoSession 99).JoinedParties = [1, 99]
    ∧ (99 : Int) ∉ joinDemoSession.PartyIDs
    ∧ (JoinSigningSession joinDemoState "j-1" 1).2 = .ok 1
    ∧ mapGet (JoinSigningSession joinDemoState "j-1" 1).1.signingessions "j-1"
        = some (withJoined joinDemoSession 1)
    ∧ (withJoined joinDemoSession 1).JoinedParties = [1, 1]
    ∧ ¬ (withJoined joinDemoSession 1).JoinedParties.Nodup := by
  refine ⟨rfl, rfl, rfl, by decide, rfl, rfl, rfl, by decide⟩

/-- C7 (amended): a signing `Join` never validates the declared PartyID: for
any declared `pid` whatsoever it succeeds and appends `pid` to
`joinedParties` whenever the session is not yet full, and fails with
`SessionFull` (only) once `n` joins have happened — so out-of-range IDs and
duplicates can enter `joinedParties`. -/
theorem joinSigningNoValidation (st : ServerState) (sid : String) (pid : Int)
    (s : Session) (h : mapGet st.signingessions sid = some s) :
    ((s.JoinedParties.length : Int) < s.N →
      JoinSigningSession st sid pid
        = (ServerState.mk st.sessions
            (mapSet st.signingessions sid (withJoined s pid)), .ok pid))
    ∧ (s.N ≤ (s.JoinedParties.length : Int) →
      JoinSigningSession st sid pid = (st, .error .sessionFull)) := by
  constructor
  · intro hlt
    simp only [JoinSigningSession, h]
    rw [if_neg (by omega)]
    rfl
  · intro hge
    simp only [JoinSigningSession, h]
    rw [if_pos hge]

/-- C7 witness: joining the demo session with the unknown ID 99 succeeds
and appends it. -/
theorem joinSigningNoValidationWitness :
    JoinSigningSession joinDemoState "j-1" 99
      = (ServerState.mk joinDemoState.sessions
          (mapSet joinDemoState.signingessions "j-1"
            (withJoined joinDemoSession 99)), .ok 99) :=
  (joinSigningNoValidation joinDemoState "j-1" 99 joinDemoSession rfl).1
    (by decide)

/-- The signing session created by `InitiateSigning` for ID `dup-1` with
`t = n = 1`. -/
def dupDemoSession : Session :=
  { ID := "dup-1", T := 1, N := 1, PartyIDs := mkPartyIDs 1,
    JoinedParties := [], Messages := fun _ => [], GroupKey := "",
    Transaction := none }

/-- Coordinator state in which the signing session ID `dup-1` is already
registered. -/
def dupDemoState : ServerState :=
  { sessions := [], signingessions := [("dup-1", dupDemoSession)] }

/-- C8 counterexample: re-initiating the signing session ID `dup-1` with the
valid parameters `t = 1, n = 1` fails (with the duplicate-ID error, not
`InvalidParameters`) — so a valid `(t, n)` does not always succeed for the
signing flavour. -/
theorem initiateSigningDuplicateCounterexample :
    (1 : Int) ≤ 1
    ∧ InitiateSigning dupDemoState "dup-1" 1 1
        = (dupDemoState, .error .sessionExists)
    ∧ (InitiateSigning dupDemoState "dup-1" 1 1).2 ≠ .ok () := by
  refine ⟨by decide, rfl, fun hc => Except.noConfusion hc⟩

/-- C8 (amended): both creation flavours fail with `InvalidParameters`
exactly when `t < 1` or `n < t`, and a valid `(t, n)` always succeeds for
keygen; for the signing flavour a valid `(t, n)` succeeds exactly when the
caller-chosen session ID is not already registered, and fails with a
duplicate-ID error otherwise. -/
theorem createSessionValidation (st : ServerState) (sid : String) (t n : Int) :
    ((t < 1 ∨ n < t) →
      InitiateKeygen st t n = (st, .error .invalidParameters)
      ∧ InitiateSigning st sid t n = (st, .error .invalidParameters))
    ∧ (1 ≤ t → t ≤ n →
      (InitiateKeygen st t n).2
        = .ok ("session-" ++ toString (st.sessions.length + 1)))
    ∧ (1 ≤ t → t ≤ n → mapGet st.signingessions sid = none →
      (InitiateSigning st sid t n).2 = .ok ())
    ∧ (1 ≤ t → t ≤ n → ∀ s, mapGet st.signingessions sid = some s →
      InitiateSigning st sid t n = (st, .error .sessionExists)) := by
  refine ⟨?_, ?_, ?_, ?_⟩
  · intro hbad
    constructor
    · rw [InitiateKeygen, if_pos (by omega)]
    · rw [InitiateSigning, if_pos (by omega)]
  · intro ht htn
    rw [InitiateKeygen, if_neg (by omega)]
  · intro ht htn hnone
    rw [InitiateSigning, if_neg (by omega), hnone]
  · intro ht htn s hs
    rw [InitiateSigning, if_neg (by omega), hs]

/-- C8 witness: `t = 0` fails with `InvalidParameters` for keygen, `t = 5,
n = 3` fails with `InvalidParameters` for signing, a fresh valid signing
creation succeeds, and re-creating `dup-1` fails with the duplicate error. -/
theorem createSessionValidationWitness :
    InitiateKeygen { sessions := [], signingessions := [] } 0 3
      = ({ sessions := [], signingessions := [] }, .error .invalidParameters)
    ∧ InitiateSigning { sessions := [], signingessions := [] } "x" 5 3
      = ({ sessions := [], signingessions := [] }, .error .invalidParameters)
    ∧ (InitiateSigning { sessions := [], signingessions := [] } "dup-1" 1 1).2
        = .ok ()
    ∧ InitiateSigning dupDemoState "dup-1" 1 1
        = (dupDemoState, .error .sessionExists) := by
  refine ⟨((createSessionValidation { sessions := [], signingessions := [] }
      "x" 0 3).1 (Or.inl (by decide))).1,
    ((createSessionValidation { sessions := [], signingessions := [] }
      "x" 5 3).1 (Or.inr (by decide))).2,
    (createSessionValidation { sessions := [], signingessions := [] }
      "dup-1" 1 1).2.2.1 (by decide) (by decide) rfl,
    (createSessionValidation dupDemoState "dup-1" 1 1).2.2.2 (by decide)
      (by decide) dupDemoSession rfl⟩

theorem mapGet_mapSet_mem (m : List (String × Session)) (k : String)
    (v : Session) (key : String) (h : ∃ s, mapGet m key = some s) :
    ∃ s2, mapGet (mapSet m k v) key = some s2 := by
  by_cases hk : k = key
  · subst hk
    exact ⟨v, mapGet_mapSet_self _ _ _⟩
  · rw [mapGet_mapSet_ne _ _ _ _ hk]
    exact h

theorem step_preserves_keygen (st : ServerState) (op : Op) (sid : String)
    (hmem : ∃ s, mapGet st.sessions sid = some s) :
    ∃ s2, mapGet (step st op).sessions sid = some s2 := by
  cases op with
  | initiateKeygen t n =>
    simp only [step, InitiateKeygen]
    split
    · exact hmem
    · exact mapGet_mapSet_mem _ _ _ _ hmem
  | joinSession sid2 =>
    simp only [step, JoinSession]
    split
    · exact hmem
    · split
      · exact hmem
      · exact mapGet_mapSet_mem _ _ _ _ hmem
  | keygenPost sid2 pid round msgs =>
    simp only [step, MessagesHandlerPost]
    split
    · exact hmem
    · exact mapGet_mapSet_mem _ _ _ _ hmem
  | keygenGet sid2 pid round => exact hmem
  | keygenStatus sid2 => exact hmem
  | initiateSigning sid2 t n =>
    simp only [step, InitiateSigning]
    split
    · exact hmem
    · split <;> exact hmem
  | joinSigning sid2 pid =>
    simp only [step, JoinSigningSession]
    split
    · exact hmem
    · split <;> exact hmem
  | broadcastTx sid2 txB64 =>
    simp only [step, BroadcastTransaction]
    split
    · exact hmem
    · split <;> exact hmem
  | signingPost sid2 pid round msgs =>
    simp only [step, SigningMessagesHandlerPost]
    split <;> exact hmem
  | signingGet sid2 pid round => exact hmem
  | signingStatus sid2 => exact hmem
  | getTransaction sid2 => exact hmem
  | finalize sid2 sigB64 =>
    simp only [step, FinalizeTransaction]
    split
    · exact hmem
    · split
      · exact hmem
      · split <;> exact hmem

theorem step_preserves_signing (st : ServerState) (op : Op) (sid : String)
    (hop : op.isFinalize = false)
    (hmem : ∃ s, mapGet st.signingessions sid = some s) :
    ∃ s2, mapGet (step st op).signingessions sid = some s2 := by
  cases op with
  | initiateKeygen t n =>
    simp only [step, InitiateKeygen]
    split <;> exact hmem
  | joinSession sid2 =>
    simp only [step, JoinSession]
    split
    · exact hmem
    · split <;> exact hmem
  | keygenPost sid2 pid round msgs =>
    simp only [step, MessagesHandlerPost]
    split <;> exact hmem
  | keygenGet sid2 pid round => exact hmem
  | keygenStatus sid2 => exact hmem
  | initiateSigning sid2 t n =>
    simp only [step, InitiateSigning]
    split
    · exact hmem
    · split
      · exact hmem
      · exact mapGet_mapSet_mem _ _ _ _ hmem
  | joinSigning sid2 pid =>
    simp only [step, JoinSigningSession]
    split
    · exact hmem
    · split
      · exact hmem
      · exact mapGet_mapSet_mem _ _ _ _ hmem
  | broadcastTx sid2 txB64 =>
    simp only [step, BroadcastTransaction]
    split
    · exact hmem
    · split
      · exact hmem
      · exact mapGet_mapSet_mem _ _ _ _ hmem
  | signingPost sid2 pid round msgs =>
    simp only [step, SigningMessagesHandlerPost]
    split
    · exact hmem
    · exact mapGet_mapSet_mem _ _ _ _ hmem
  | signingGet sid2 pid round => exact hmem
  | signingStatus sid2 => exact hmem
  | getTransaction sid2 => exact hmem
  | finalize sid2 sigB64 => simp [Op.isFinalize] at hop

theorem run_preserves_keygen (ops : List Op) :
    ∀ st sid, (∃ s, mapGet st.sessions sid = some s) →
    ∃ s2, mapGet (run st ops).sessions sid = some s2 := by
  induction ops with
  | nil => intro st sid h; exact h
  | cons op rest ih =>
    intro st sid h
    exact ih _ _ (step_preserves_keygen st op sid h)

theorem run_preserves_signing (ops : List Op) :
    ∀ st sid, (∀ op ∈ ops, op.isFinalize = false) →
    (∃ s, mapGet st.signingessions sid = some s) →
    ∃ s2, mapGet (run st ops).signingessions sid = some s2 := by
  induction ops with
  | nil => intro st sid _ h; exact h
  | cons op rest ih =>
    intro st sid hops h
    exact ih _ _ (fun o ho => hops o (by simp [ho]))
      (step_preserves_signing st op sid (hops op (by simp)) h)

/-- C10: once a keygen session exists, no sequence of coordinator requests
ever removes it — its lookup still succeeds after arbitrarily many
operations, including finalize calls; and signing-registry sessions survive
every operation other than a finalize, the only deleting request. -/
theorem keygenSessionsPersist (st : ServerState) (ops : List Op) (sid : String)
    (hmem : ∃ s, mapGet st.sessions sid = some s) :
    (∃ s2, mapGet (run st ops).sessions sid = some s2)
    ∧ (∀ sid2, (∃ s3, mapGet st.signingessions sid2 = some s3) →
        (∀ op ∈ ops, op.isFinalize = false) →
        ∃ s4, mapGet (run st ops).signingessions sid2 = some s4) :=
  ⟨run_preserves_keygen ops st sid hmem,
   fun sid2 h3 hops => run_preserves_signing ops st sid2 hops h3⟩

/-- Keygen session used for the persistence witness. -/
def persistKgSession : Session :=
  { ID := "p-kg", T := 1, N := 1, PartyIDs := [1], JoinedParties := [],
    Messages := fun _ => [], GroupKey := "", Transaction := none }

/-- Signing session with a staged transaction, used for the persistence
witness. -/
def persistSigSession : Session :=
  { ID := "p-sig", T := 1, N := 1, PartyIDs := [1], JoinedParties := [1],
    Messages := fun _ => [], GroupKey := "", Transaction := some [1] }

/-- Coordinator state holding `persistKgSession` and `persistSigSession`. -/
def persistDemoState : ServerState :=
  { sessions := [("p-kg", persistKgSession)],
    signingessions := [("p-sig", persistSigSession)] }

/-- A request sequence including a successful finalize of the signing
session. -/
def persistFinalizeOps : List Op :=
  [Op.finalize "p-sig" (base64Encode [1]), Op.initiateKeygen 1 1,
   Op.joinSession "p-kg"]

/-- A finalize-free request sequence touching both registries. -/
def persistDemoOps : List Op :=
  [Op.joinSession "p-kg", Op.initiateKeygen 1 1,
   Op.broadcastTx "p-sig" (base64Encode [2])]

/-- C10 witness: the keygen session `p-kg` survives a sequence containing a
finalize, and the signing session `p-sig` survives a finalize-free
sequence. -/
theorem keygenSessionsPersistWitness :
    (∃ s2, mapGet (run persistDemoState persistFinalizeOps).sessions "p-kg"
        = some s2)
    ∧ (∃ s4, mapGet (run persistDemoState persistDemoOps).signingessions
        "p-sig" = some s4) := by
  have h1 := keygenSessionsPersist persistDemoState persistFinalizeOps "p-kg"
    ⟨persistKgSession, rfl⟩
  have h2 := keygenSessionsPersist persistDemoState persistDemoOps "p-kg"
    ⟨persistKgSession, rfl⟩
  exact ⟨h1.1, h2.2 "p-sig" ⟨persistSigSession, rfl⟩ (by decide)⟩
